import Mathlib

/-!
# Verification of the Questio batch report orchestrator

A shallow embedding of the grading/report application:

* `src/App.tsx` — the batch loop `handleGenerateReport` (here `runBatch` /
  `processStudent` / `runLoop`), which seeds one per-student record, then for
  each student in roster order runs the grading stage and the formatting
  stage, updating the record collection and the progress counter.
* the Gemini service module — `searchScoringCriteria`,
  `gradeSolutionAndGenerateFeedback` (input validation before any network
  call) and `formatReportToHtml` (code-fence stripping of the response).
* the constants module — `getInitialModel` / `AVAILABLE_MODELS`.

JavaScript strings are embedded as `List Char` (`JsString`), so that the
character-level operations of the source (`substring`, `startsWith`,
`endsWith`, `trim`, `Set` de-duplication) become executable list functions.
External service behaviour is an explicit parameter: each `await`ed call
consumes one entry of an oracle `Nat → ServiceResult` (indexed by the number
of calls already made in the batch) and advances a logical clock by one; the
clock models wall-clock time passing across service round trips, and
`new Date()` reads the clock without advancing it.
-/

/-- JavaScript strings, embedded as their character sequences. -/
abbrev JsString := List Char

/-- Character sequence of a Lean string literal. -/
def str (s : String) : JsString := s.data

/-- JS `String.prototype.trim()`: whitespace removed from both ends. -/
def trimChars (l : JsString) : JsString :=
  ((l.dropWhile Char.isWhitespace).reverse.dropWhile Char.isWhitespace).reverse

/- ## Data model (`types.ts`) -/

/-- One roster entry (`StudentData` in `types.ts`); `solutionFiles` are
opaque uploaded-document handles. -/
structure StudentData where
  id : JsString
  name : JsString
  email : JsString
  solutionFiles : List JsString
  reportTemplate : JsString
deriving DecidableEq, Repr

/-- The shared per-batch data assembled at the top of `handleGenerateReport`
(`commonData` in `App.tsx`). -/
structure CommonData where
  examInfo : JsString
  scoringCriteria : JsString
  model : JsString
  examMaterials : List JsString
deriving DecidableEq, Repr

/-- The per-student argument of `gradeSolutionAndGenerateFeedback`. -/
structure StudentTask where
  name : JsString
  solutionFiles : List JsString
  reportTemplate : JsString
deriving DecidableEq, Repr

/-- Projection of a roster entry to the grading-stage argument, as built at
the call site in `App.tsx`. -/
def taskOf (s : StudentData) : StudentTask :=
  {name := s.name, solutionFiles := s.solutionFiles, reportTemplate := s.reportTemplate}

/-- `ReportData` of `types.ts`: the payload stored on a successful record.
`generationDate` is the logical-clock value read by `new Date()`. -/
structure ReportData where
  htmlContent : JsString
  studentEmail : JsString
  studentName : JsString
  examInfo : JsString
  generationDate : Nat
deriving DecidableEq, Repr

/-- The `status` field of a `ReportResult` in `App.tsx`. -/
inductive Status where
  | loading
  | done
  | error
deriving DecidableEq, Repr

/-- One entry of the `results` state of `App.tsx` (`ReportResult`). -/
structure ReportResult where
  studentId : JsString
  studentName : JsString
  status : Status
  data : Option ReportData
  error : Option JsString
  progressMessage : Option JsString
deriving DecidableEq, Repr

/-- The `progress` state of `App.tsx`. -/
structure Progress where
  current : Nat
  total : Nat
deriving DecidableEq, Repr

/- ## Error taxonomy and the external service -/

/-- Error taxonomy of the spec: validation failures are raised before the
network call, service failures come from the external call itself. -/
inductive ErrKind where
  | validation
  | service
deriving DecidableEq, Repr

/-- A thrown `Error`: its taxonomy class together with the `message`
carried to the `catch` blocks of `App.tsx`. -/
structure Err where
  kind : ErrKind
  message : JsString
deriving DecidableEq, Repr

/-- Outcome of one awaited round trip to the text-generation service. -/
inductive ServiceResult where
  | ok (text : JsString)
  | fail (message : JsString)
deriving DecidableEq, Repr

/-- The two kinds of per-student service calls made by the batch loop,
tagged with the id of the student they were made for. -/
inductive ServiceCall where
  | grade (sid : JsString)
  | format (sid : JsString)
deriving DecidableEq, Repr

/-- Student id a service call was made for. -/
def ServiceCall.sid : ServiceCall → JsString
  | .grade i => i
  | .format i => i

/- ## Grading service client (`geminiService.ts`) -/

/-- The Korean message of the validation error thrown by
`gradeSolutionAndGenerateFeedback` when exam materials or solution files
are missing (the spec's `missing required input` reason). -/
def requiredFilesError : JsString := str "시험 자료와 학생 풀이 파일은 필수입니다."

/-- `gradeSolutionAndGenerateFeedback` of `geminiService.ts`: validates that
at least one exam-material document and at least one solution document are
present before the network call; otherwise forwards the service outcome.
The returned flag records whether the network call was made. -/
def gradeSolutionAndGenerateFeedback (c : CommonData) (t : StudentTask)
    (svc : ServiceResult) : Except Err JsString × Bool :=
  if c.examMaterials.length = 0 ∨ t.solutionFiles.length = 0 then
    (Except.error {kind := ErrKind.validation, message := requiredFilesError}, false)
  else
    match svc with
    | ServiceResult.ok text => (Except.ok text, true)
    | ServiceResult.fail m => (Except.error {kind := ErrKind.service, message := m}, true)

/-- Opening fence marker checked by `formatReportToHtml`. -/
def fenceOpen : JsString := str "```html"

/-- Closing fence marker checked by `formatReportToHtml`. -/
def fenceClose : JsString := str "```"

/-- The post-processing of `formatReportToHtml` (lines 200–208 of
`geminiService.ts`): drop a leading ```` ```html ```` marker, drop a
trailing ```` ``` ```` marker, then trim. -/
def stripFences (html : JsString) : JsString :=
  let h1 := if fenceOpen.isPrefixOf html then html.drop 7 else html
  let h2 := if fenceClose.isSuffixOf h1 then h1.take (h1.length - 3) else h1
  trimChars h2

/-- `formatReportToHtml` of `geminiService.ts`: one service round trip whose
successful response is post-processed by `stripFences`; `rawReport`,
`examInfo`, `studentName` and `generationDate` only shape the prompt. -/
def formatReportToHtml (_rawReport : JsString) (_examInfo : JsString)
    (_studentName : JsString) (_generationDate : Nat)
    (svc : ServiceResult) : Except Err JsString :=
  match svc with
  | ServiceResult.ok text => Except.ok (stripFences text)
  | ServiceResult.fail m => Except.error {kind := ErrKind.service, message := m}

/- ## Criteria search (`searchScoringCriteria`) -/

/-- The grounding part of a search response: the generated text and, for
each grounding chunk, its optional `web.uri`. -/
structure SearchResponse where
  text : JsString
  groundingUris : List (Option JsString)
deriving DecidableEq, Repr

/-- First-occurrence de-duplication, the semantics of `[...new Set(urls)]`:
each element is kept at its first position, later duplicates are dropped. -/
def firstSeenDedup : List JsString → List JsString
  | [] => []
  | u :: rest => u :: (firstSeenDedup rest).filter (fun v => v ≠ u)

/-- Index of the first occurrence of `v` in `l`: the length of the prefix
of `l` before `v` first appears. -/
def firstIdx (l : List JsString) (v : JsString) : Nat :=
  (l.takeWhile (fun x => x ≠ v)).length

/-- The fixed references heading appended by `searchScoringCriteria`. -/
def referencesHeader : JsString := str "\n\n---\n**참고 자료:**\n"

/-- The references block built from the de-duplicated source URIs: empty
when there are none, otherwise the heading followed by one `- uri` line
per unique source. -/
def renderReferences (uniqueUrls : List JsString) : JsString :=
  if uniqueUrls.length > 0 then
    referencesHeader ++ uniqueUrls.foldl (fun acc u => acc ++ str "- " ++ u ++ str "\n") []
  else []

/-- `searchScoringCriteria` of `geminiService.ts`: a transport failure of the
awaited call propagates to the caller; on a response, the trimmed text is
returned with the references block appended. -/
def searchScoringCriteria (svc : Except JsString SearchResponse) : Except Err JsString :=
  match svc with
  | Except.error m => Except.error {kind := ErrKind.service, message := m}
  | Except.ok resp =>
      let urls := resp.groundingUris.filterMap id
      let uniqueUrls := firstSeenDedup urls
      Except.ok (trimChars resp.text ++ renderReferences uniqueUrls)

/- ## Preferred-model persistence (`constants.ts`) -/

/-- `AVAILABLE_MODELS` of `constants.ts`. -/
def AVAILABLE_MODELS : List JsString :=
  [str "gemini-2.5-flash", str "gemini-2.5-pro", str "gemini-3-pro-preview"]

/-- `getInitialModel` of `constants.ts`. The argument is the outcome of the
`localStorage` read: a thrown read error, no saved value, or a saved string;
a truthy saved value that is one of `AVAILABLE_MODELS` is returned,
everything else falls back to the default. -/
def getInitialModel (stored : Except Unit (Option JsString)) : JsString :=
  match stored with
  | Except.ok (some savedModel) =>
      if savedModel ≠ [] ∧ savedModel ∈ AVAILABLE_MODELS then savedModel
      else str "gemini-2.5-flash"
  | _ => str "gemini-2.5-flash"

/- ## Batch orchestrator (`handleGenerateReport` in `App.tsx`) -/

/-- Progress note of a freshly seeded record (`'대기 중...'`). -/
def waitingMsg : JsString := str "대기 중..."

/-- Progress note while the grading call is in flight. -/
def analyzingMsg : JsString := str "AI가 답안 분석 중..."

/-- Progress note while the formatting call is in flight. -/
def formattingMsg : JsString := str "보고서 생성 중..."

/-- The `setResults(prev => prev.map(r => r.studentId === id ? f r : r))`
update pattern of `App.tsx`: rewrite every record whose id matches. -/
def setRecord (results : List ReportResult) (sid : JsString)
    (f : ReportResult → ReportResult) : List ReportResult :=
  results.map (fun r => if r.studentId = sid then f r else r)

/-- Record update setting a progress note (status untouched). -/
def markNote (note : JsString) (r : ReportResult) : ReportResult :=
  {r with progressMessage := some note}

/-- Record update of the `catch` block: status `error`, the captured
message, progress note cleared. -/
def markError (message : JsString) (r : ReportResult) : ReportResult :=
  {r with status := Status.error, error := some message, progressMessage := none}

/-- Record update of the success path: status `done`, the assembled report
data, progress note cleared. -/
def markDone (d : ReportData) (r : ReportResult) : ReportResult :=
  {r with status := Status.done, data := some d, progressMessage := none}

/-- The observable state of one `handleGenerateReport` run: the `results`
and `progress` React state, the logical clock, the trace of service calls
made so far, and the histories of every `setResults` / `setProgress`
update (seed included) as seen by an observer of the state. -/
structure BatchState where
  results : List ReportResult
  progress : Progress
  clock : Nat
  calls : List ServiceCall
  ledgerTrace : List (List ReportResult)
  progressTrace : List Progress
deriving Repr

/-- One awaited service round trip: the call is appended to the trace and
the clock advances across the `await`. -/
def recordCall (st : BatchState) (call : ServiceCall) : BatchState :=
  {st with clock := st.clock + 1, calls := st.calls ++ [call]}

/-- The `catch` block of the per-student `try`: mark the student's record
failed with the captured message. -/
def failStudent (st : BatchState) (sid : JsString) (message : JsString) : BatchState :=
  let r := setRecord st.results sid (markError message)
  {st with results := r, ledgerTrace := st.ledgerTrace ++ [r]}

/-- The body of the `for` loop of `handleGenerateReport` for the student at
index `i`: publish progress `i + 1`, capture `generationDate` from the
clock, mark the record analyzing, run the grading stage (validation first,
then the service call), on success mark formatting and run the formatting
stage, then record the terminal outcome. -/
def processStudent (c : CommonData) (oracle : Nat → ServiceResult) (i : Nat)
    (s : StudentData) (st : BatchState) : BatchState :=
  let prog : Progress := {current := i + 1, total := st.progress.total}
  let generationDate := st.clock
  let r1 := setRecord st.results s.id (markNote analyzingMsg)
  let st1 : BatchState :=
    { st with
      progress := prog
      results := r1
      progressTrace := st.progressTrace ++ [prog]
      ledgerTrace := st.ledgerTrace ++ [r1] }
  match gradeSolutionAndGenerateFeedback c (taskOf s) (oracle st1.calls.length) with
  | (Except.error e, called) =>
      let st2 := if called then recordCall st1 (ServiceCall.grade s.id) else st1
      failStudent st2 s.id e.message
  | (Except.ok rawReport, _) =>
      let st2 := recordCall st1 (ServiceCall.grade s.id)
      let r2 := setRecord st2.results s.id (markNote formattingMsg)
      let st3 : BatchState :=
        {st2 with results := r2, ledgerTrace := st2.ledgerTrace ++ [r2]}
      match formatReportToHtml rawReport c.examInfo s.name generationDate
          (oracle st3.calls.length) with
      | Except.error e =>
          let st4 := recordCall st3 (ServiceCall.format s.id)
          failStudent st4 s.id e.message
      | Except.ok htmlReport =>
          let st4 := recordCall st3 (ServiceCall.format s.id)
          let d : ReportData :=
            { htmlContent := htmlReport
              studentEmail := s.email
              studentName := s.name
              examInfo := c.examInfo
              generationDate := generationDate }
          let r3 := setRecord st4.results s.id (markDone d)
          {st4 with results := r3, ledgerTrace := st4.ledgerTrace ++ [r3]}

/-- The `for` loop of `handleGenerateReport`, starting at index `i`. -/
def runLoop (c : CommonData) (oracle : Nat → ServiceResult) :
    List StudentData → Nat → BatchState → BatchState
  | [], _, st => st
  | s :: rest, i, st => runLoop c oracle rest (i + 1) (processStudent c oracle i s st)

/-- The seeded `results` state: one loading record per roster entry, in
roster order, each with the waiting note. -/
def seedResults (roster : List StudentData) : List ReportResult :=
  roster.map (fun s =>
    { studentId := s.id
      studentName := s.name
      status := Status.loading
      data := none
      error := none
      progressMessage := some waitingMsg })

/-- The state right after the seeding statements of `handleGenerateReport`
(`setProgress({current: 0, total})` and the seeding `setResults`). -/
def initialState (roster : List StudentData) (clock0 : Nat) : BatchState :=
  let prog : Progress := {current := 0, total := roster.length}
  let seed := seedResults roster
  {results := seed, progress := prog, clock := clock0, calls := [],
   ledgerTrace := [seed], progressTrace := [prog]}

/-- A whole `handleGenerateReport` run over a roster: seed, then the loop. -/
def runBatch (c : CommonData) (oracle : Nat → ServiceResult)
    (roster : List StudentData) (clock0 : Nat) : BatchState :=
  runLoop c oracle roster 0 (initialState roster clock0)

/-- The state reached after the first `k` loop iterations of a run. -/
def stateAt (c : CommonData) (oracle : Nat → ServiceResult)
    (roster : List StudentData) (clock0 : Nat) (k : Nat) : BatchState :=
  runLoop c oracle (roster.take k) 0 (initialState roster clock0)

/-- One observed `setResults` update: a record's status either stays what
it was or moves from `loading` to a terminal state. This is the monotone
state-machine discipline of the spec, read on adjacent ledger snapshots. -/
def StepOk (S T : List ReportResult) : Prop :=
  ∀ j : Nat, ∀ a b : ReportResult, S[j]? = some a → T[j]? = some b →
    (b.status = a.status ∨
      (a.status = Status.loading ∧ (b.status = Status.done ∨ b.status = Status.error)))

/- ## Concrete fixtures for witnesses and counterexamples -/

/-- Shared batch data with one exam-material document. -/
def commonOne : CommonData :=
  { examInfo := str "E"
    scoringCriteria := str "C"
    model := str "gemini-2.5-flash"
    examMaterials := [str "m"] }

/-- A student with one solution document. -/
def studentA : StudentData :=
  { id := str "s1"
    name := str "A"
    email := str "a@x"
    solutionFiles := [str "f"]
    reportTemplate := [] }

/-- A student with an empty solution-document collection. -/
def studentB : StudentData :=
  { id := str "s2"
    name := str "B"
    email := str "b@x"
    solutionFiles := []
    reportTemplate := [] }

/-- A second valid student. -/
def studentC : StudentData :=
  { id := str "s3"
    name := str "Cc"
    email := str "c@x"
    solutionFiles := [str "g"]
    reportTemplate := [] }

/-- A student that reuses `studentA`'s id but has no solution documents. -/
def studentDup : StudentData :=
  { id := str "s1"
    name := str "D"
    email := str "d@x"
    solutionFiles := []
    reportTemplate := [] }

/-- An always-successful service oracle. -/
def oracleOk : Nat → ServiceResult := fun _ => ServiceResult.ok (str "out")

/-- A service oracle whose very first call fails. -/
def oracleFirstFails : Nat → ServiceResult := fun n =>
  if n = 0 then ServiceResult.fail (str "boom") else ServiceResult.ok (str "out")

/-! ## Basic lemmas about record updates -/

theorem markNote_studentId (note : JsString) (r : ReportResult) :
    (markNote note r).studentId = r.studentId := rfl

theorem markNote_status (note : JsString) (r : ReportResult) :
    (markNote note r).status = r.status := rfl

theorem markError_studentId (m : JsString) (r : ReportResult) :
    (markError m r).studentId = r.studentId := rfl

theorem markDone_studentId (d : ReportData) (r : ReportResult) :
    (markDone d r).studentId = r.studentId := rfl

theorem setRecord_length (l : List ReportResult) (sid : JsString)
    (f : ReportResult → ReportResult) : (setRecord l sid f).length = l.length := by
  simp [setRecord]

theorem setRecord_getElem? (l : List ReportResult) (sid : JsString)
    (f : ReportResult → ReportResult) (j : Nat) :
    (setRecord l sid f)[j]? =
      (l[j]?).map (fun r => if r.studentId = sid then f r else r) := by
  simp [setRecord, List.getElem?_map]

theorem mem_setRecord {l : List ReportResult} {sid : JsString}
    {f : ReportResult → ReportResult} {r' : ReportResult} :
    r' ∈ setRecord l sid f ↔
      ∃ r ∈ l, (if r.studentId = sid then f r else r) = r' := by
  simp [setRecord, List.mem_map]

theorem setRecord_map_studentId {f : ReportResult → ReportResult}
    (hf : ∀ r, (f r).studentId = r.studentId)
    (l : List ReportResult) (sid : JsString) :
    (setRecord l sid f).map (fun r => r.studentId) =
      l.map (fun r => r.studentId) := by
  induction l with
  | nil => rfl
  | cons r t ih =>
      simp only [setRecord, List.map_cons] at ih ⊢
      by_cases h : r.studentId = sid <;> simp [h, hf, ih]

theorem setRecord_setRecord (f : ReportResult → ReportResult)
    (hf : ∀ r, (f r).studentId = r.studentId)
    (l : List ReportResult) (sid : JsString) (g : ReportResult → ReportResult) :
    setRecord (setRecord l sid f) sid g = setRecord l sid (fun r => g (f r)) := by
  induction l with
  | nil => rfl
  | cons r t ih =>
      simp only [setRecord, List.map_cons] at ih ⊢
      by_cases h : r.studentId = sid <;> simp [h, hf, ih]

/-! ## Branch characterizations of one loop iteration -/

theorem processStudent_precheckFail (c : CommonData) (oracle : Nat → ServiceResult)
    (i : Nat) (s : StudentData) (st : BatchState)
    (hpre : c.examMaterials.length = 0 ∨ s.solutionFiles.length = 0) :
    processStudent c oracle i s st =
      (let prog : Progress := {current := i + 1, total := st.progress.total}
       let r1 := setRecord st.results s.id (markNote analyzingMsg)
       let r2 := setRecord r1 s.id (markError requiredFilesError)
       { results := r2
         progress := prog
         clock := st.clock
         calls := st.calls
         ledgerTrace := st.ledgerTrace ++ [r1, r2]
         progressTrace := st.progressTrace ++ [prog] }) := by
  simp only [processStudent, gradeSolutionAndGenerateFeedback, taskOf]
  rw [if_pos hpre]
  simp [failStudent]

theorem processStudent_gradeFail (c : CommonData) (oracle : Nat → ServiceResult)
    (i : Nat) (s : StudentData) (st : BatchState) (m : JsString)
    (hpre : ¬(c.examMaterials.length = 0 ∨ s.solutionFiles.length = 0))
    (hg : oracle st.calls.length = ServiceResult.fail m) :
    processStudent c oracle i s st =
      (let prog : Progress := {current := i + 1, total := st.progress.total}
       let r1 := setRecord st.results s.id (markNote analyzingMsg)
       let r2 := setRecord r1 s.id (markError m)
       { results := r2
         progress := prog
         clock := st.clock + 1
         calls := st.calls ++ [ServiceCall.grade s.id]
         ledgerTrace := st.ledgerTrace ++ [r1, r2]
         progressTrace := st.progressTrace ++ [prog] }) := by
  simp only [processStudent, gradeSolutionAndGenerateFeedback, taskOf]
  rw [if_neg hpre]
  simp [hg, failStudent, recordCall]

theorem processStudent_formatFail (c : CommonData) (oracle : Nat → ServiceResult)
    (i : Nat) (s : StudentData) (st : BatchState) (raw m : JsString)
    (hpre : ¬(c.examMaterials.length = 0 ∨ s.solutionFiles.length = 0))
    (hg : oracle st.calls.length = ServiceResult.ok raw)
    (hf : oracle (st.calls.length + 1) = ServiceResult.fail m) :
    processStudent c oracle i s st =
      (let prog : Progress := {current := i + 1, total := st.progress.total}
       let r1 := setRecord st.results s.id (markNote analyzingMsg)
       let r2 := setRecord r1 s.id (markNote formattingMsg)
       let r3 := setRecord r2 s.id (markError m)
       { results := r3
         progress := prog
         clock := st.clock + 2
         calls := st.calls ++ [ServiceCall.grade s.id, ServiceCall.format s.id]
         ledgerTrace := st.ledgerTrace ++ [r1, r2, r3]
         progressTrace := st.progressTrace ++ [prog] }) := by
  simp only [processStudent, gradeSolutionAndGenerateFeedback, taskOf]
  rw [if_neg hpre]
  simp [hg, hf, failStudent, recordCall, formatReportToHtml]

theorem processStudent_success (c : CommonData) (oracle : Nat → ServiceResult)
    (i : Nat) (s : StudentData) (st : BatchState) (raw fmt : JsString)
    (hpre : ¬(c.examMaterials.length = 0 ∨ s.solutionFiles.length = 0))
    (hg : oracle st.calls.length = ServiceResult.ok raw)
    (hf : oracle (st.calls.length + 1) = ServiceResult.ok fmt) :
    processStudent c oracle i s st =
      (let prog : Progress := {current := i + 1, total := st.progress.total}
       let r1 := setRecord st.results s.id (markNote analyzingMsg)
       let r2 := setRecord r1 s.id (markNote formattingMsg)
       let r3 := setRecord r2 s.id (markDone
         { htmlContent := stripFences fmt
           studentEmail := s.email
           studentName := s.name
           examInfo := c.examInfo
           generationDate := st.clock })
       { results := r3
         progress := prog
         clock := st.clock + 2
         calls := st.calls ++ [ServiceCall.grade s.id, ServiceCall.format s.id]
         ledgerTrace := st.ledgerTrace ++ [r1, r2, r3]
         progressTrace := st.progressTrace ++ [prog] }) := by
  simp only [processStudent, gradeSolutionAndGenerateFeedback, taskOf]
  rw [if_neg hpre]
  simp [hg, hf, failStudent, recordCall, formatReportToHtml]

/-- Every loop iteration rewrites exactly the records of the processed
student's id, is id- and name-preserving on records, and moves the
rewritten records to a terminal status. -/
theorem processStudent_results_shape (c : CommonData) (oracle : Nat → ServiceResult)
    (i : Nat) (s : StudentData) (st : BatchState) :
    ∃ f : ReportResult → ReportResult,
      (processStudent c oracle i s st).results = setRecord st.results s.id f ∧
      (∀ r, (f r).studentId = r.studentId) ∧
      (∀ r, (f r).studentName = r.studentName) ∧
      (∀ r, (f r).status = Status.done ∨ (f r).status = Status.error) := by
  by_cases hpre : (c.examMaterials.length = 0 ∨ s.solutionFiles.length = 0)
  · rw [processStudent_precheckFail c oracle i s st hpre]
    refine ⟨fun r => markError requiredFilesError (markNote analyzingMsg r), ?_, ?_, ?_, ?_⟩ <;>
      simp [setRecord_setRecord, markNote, markError]
  · cases hg : oracle st.calls.length with
    | fail m =>
        rw [processStudent_gradeFail c oracle i s st m hpre hg]
        refine ⟨fun r => markError m (markNote analyzingMsg r), ?_, ?_, ?_, ?_⟩ <;>
          simp [setRecord_setRecord, markNote, markError]
    | ok raw =>
        cases hf : oracle (st.calls.length + 1) with
        | fail m =>
            rw [processStudent_formatFail c oracle i s st raw m hpre hg hf]
            refine ⟨fun r =>
              markError m (markNote formattingMsg (markNote analyzingMsg r)), ?_, ?_, ?_, ?_⟩ <;>
              simp [setRecord_setRecord, markNote, markError]
        | ok fmt =>
            rw [processStudent_success c oracle i s st raw fmt hpre hg hf]
            refine ⟨fun r =>
              markDone ⟨stripFences fmt, s.email, s.name, c.examInfo, st.clock⟩
                (markNote formattingMsg (markNote analyzingMsg r)), ?_, ?_, ?_, ?_⟩ <;>
              simp [setRecord_setRecord, markNote, markDone]

/-- The calls appended during one iteration are all made for the processed
student's id. -/
theorem processStudent_calls_shape (c : CommonData) (oracle : Nat → ServiceResult)
    (i : Nat) (s : StudentData) (st : BatchState) :
    ∃ cs : List ServiceCall,
      (processStudent c oracle i s st).calls = st.calls ++ cs ∧
      ∀ call ∈ cs, call.sid = s.id := by
  by_cases hpre : (c.examMaterials.length = 0 ∨ s.solutionFiles.length = 0)
  · rw [processStudent_precheckFail c oracle i s st hpre]
    exact ⟨[], by simp, by simp⟩
  · cases hg : oracle st.calls.length with
    | fail m =>
        rw [processStudent_gradeFail c oracle i s st m hpre hg]
        exact ⟨[ServiceCall.grade s.id], by simp, by simp [ServiceCall.sid]⟩
    | ok raw =>
        cases hf : oracle (st.calls.length + 1) with
        | fail m =>
            rw [processStudent_formatFail c oracle i s st raw m hpre hg hf]
            exact ⟨[ServiceCall.grade s.id, ServiceCall.format s.id], by simp,
              by simp [ServiceCall.sid]⟩
        | ok fmt =>
            rw [processStudent_success c oracle i s st raw fmt hpre hg hf]
            exact ⟨[ServiceCall.grade s.id, ServiceCall.format s.id], by simp,
              by simp [ServiceCall.sid]⟩

/-- Every iteration publishes exactly one progress update: the 1-based
index of the processed student, with the total untouched. -/
theorem processStudent_progress (c : CommonData) (oracle : Nat → ServiceResult)
    (i : Nat) (s : StudentData) (st : BatchState) :
    (processStudent c oracle i s st).progress
        = {current := i + 1, total := st.progress.total} ∧
    (processStudent c oracle i s st).progressTrace
        = st.progressTrace ++ [{current := i + 1, total := st.progress.total}] := by
  by_cases hpre : (c.examMaterials.length = 0 ∨ s.solutionFiles.length = 0)
  · rw [processStudent_precheckFail c oracle i s st hpre]; exact ⟨rfl, rfl⟩
  · cases hg : oracle st.calls.length with
    | fail m =>
        rw [processStudent_gradeFail c oracle i s st m hpre hg]; exact ⟨rfl, rfl⟩
    | ok raw =>
        cases hf : oracle (st.calls.length + 1) with
        | fail m =>
            rw [processStudent_formatFail c oracle i s st raw m hpre hg hf]; exact ⟨rfl, rfl⟩
        | ok fmt =>
            rw [processStudent_success c oracle i s st raw fmt hpre hg hf]; exact ⟨rfl, rfl⟩

/-! ## Snapshot-chain lemmas for the ledger trace -/

/-- A note-only update never changes any record's status. -/
theorem stepOk_markNote (S : List ReportResult) (sid note : JsString) :
    StepOk S (setRecord S sid (markNote note)) := by
  intro j a b ha hb
  rw [setRecord_getElem?, ha] at hb
  left
  by_cases h : a.studentId = sid <;> simp [h, markNote] at hb <;> simp [← hb, markNote]

/-- A terminal-setting update is a legal step when every matching record is
still loading. -/
theorem stepOk_terminal (S : List ReportResult) (sid : JsString)
    (g : ReportResult → ReportResult)
    (hload : ∀ r ∈ S, r.studentId = sid → r.status = Status.loading)
    (hg : ∀ r, (g r).status = Status.done ∨ (g r).status = Status.error) :
    StepOk S (setRecord S sid g) := by
  intro j a b ha hb
  rw [setRecord_getElem?, ha] at hb
  by_cases h : a.studentId = sid
  · simp [h] at hb
    right
    exact ⟨hload a (List.getElem?_mem ha) h, hb ▸ hg a⟩
  · simp [h] at hb
    left
    rw [← hb]

/-- Note-only updates keep matching records loading. -/
theorem markNote_keeps_loading (S : List ReportResult) (sid note : JsString)
    (hload : ∀ r ∈ S, r.studentId = sid → r.status = Status.loading) :
    ∀ r ∈ setRecord S sid (markNote note), r.studentId = sid → r.status = Status.loading := by
  intro r hr hid
  rcases mem_setRecord.mp hr with ⟨r0, hr0, heq⟩
  by_cases h : r0.studentId = sid
  · simp [h] at heq
    rw [← heq]
    simpa [markNote] using hload r0 hr0 h
  · simp [h] at heq
    rw [← heq] at hid
    exact absurd hid h

/-- One iteration appends a non-empty run of snapshots to the ledger trace,
ending at the new `results`, and each appended step respects the
loading-to-terminal status discipline provided every record of the
processed id is still loading. -/
theorem processStudent_trace_shape (c : CommonData) (oracle : Nat → ServiceResult)
    (i : Nat) (s : StudentData) (st : BatchState)
    (hload : ∀ r ∈ st.results, r.studentId = s.id → r.status = Status.loading) :
    ∃ snaps : List (List ReportResult), snaps ≠ [] ∧
      (processStudent c oracle i s st).ledgerTrace = st.ledgerTrace ++ snaps ∧
      snaps.getLast? = some (processStudent c oracle i s st).results ∧
      List.Chain' StepOk (st.results :: snaps) := by
  have hload1 := markNote_keeps_loading st.results s.id analyzingMsg hload
  have hload2 := markNote_keeps_loading _ s.id formattingMsg hload1
  by_cases hpre : (c.examMaterials.length = 0 ∨ s.solutionFiles.length = 0)
  · rw [processStudent_precheckFail c oracle i s st hpre]
    refine ⟨_, by simp, rfl, by simp, ?_⟩
    simp only [List.chain'_cons, List.chain'_singleton, and_true]
    exact ⟨stepOk_markNote _ _ _,
      stepOk_terminal _ _ _ hload1 (fun r => Or.inr rfl)⟩
  · cases hg : oracle st.calls.length with
    | fail m =>
        rw [processStudent_gradeFail c oracle i s st m hpre hg]
        refine ⟨_, by simp, rfl, by simp, ?_⟩
        simp only [List.chain'_cons, List.chain'_singleton, and_true]
        exact ⟨stepOk_markNote _ _ _,
          stepOk_terminal _ _ _ hload1 (fun r => Or.inr rfl)⟩
    | ok raw =>
        cases hf : oracle (st.calls.length + 1) with
        | fail m =>
            rw [processStudent_formatFail c oracle i s st raw m hpre hg hf]
            refine ⟨_, by simp, rfl, by simp, ?_⟩
            simp only [List.chain'_cons, List.chain'_singleton, and_true]
            exact ⟨stepOk_markNote _ _ _, stepOk_markNote _ _ _,
              stepOk_terminal _ _ _ hload2 (fun r => Or.inr rfl)⟩
        | ok fmt =>
            rw [processStudent_success c oracle i s st raw fmt hpre hg hf]
            refine ⟨_, by simp, rfl, by simp, ?_⟩
            simp only [List.chain'_cons, List.chain'_singleton, and_true]
            exact ⟨stepOk_markNote _ _ _, stepOk_markNote _ _ _,
              stepOk_terminal _ _ _ hload2 (fun r => Or.inl rfl)⟩

/-! ## Loop-level invariants -/

/-- The loop never changes the sequence of record ids. -/
theorem runLoop_map_studentId (c : CommonData) (oracle : Nat → ServiceResult) :
    ∀ (l : List StudentData) (i : Nat) (st : BatchState),
      ((runLoop c oracle l i st).results).map (fun r => r.studentId) =
        st.results.map (fun r => r.studentId)
  | [], _, _ => rfl
  | s :: rest, i, st => by
      rcases processStudent_results_shape c oracle i s st with ⟨f, hres, hid, _, _⟩
      rw [runLoop, runLoop_map_studentId c oracle rest (i + 1) _, hres,
        setRecord_map_studentId hid]

/-- If every non-terminal record belongs to a student still to be
processed, the loop ends with every record terminal. -/
theorem runLoop_terminal (c : CommonData) (oracle : Nat → ServiceResult) :
    ∀ (l : List StudentData) (i : Nat) (st : BatchState),
      (∀ r ∈ st.results, (r.status = Status.done ∨ r.status = Status.error) ∨
        r.studentId ∈ l.map (fun s => s.id)) →
      ∀ r ∈ (runLoop c oracle l i st).results,
        r.status = Status.done ∨ r.status = Status.error
  | [], _, st, hinv => by
      intro r hr
      rcases hinv r hr with h | h
      · exact h
      · simp at h
  | s :: rest, i, st, hinv => by
      rw [runLoop]
      refine runLoop_terminal c oracle rest (i + 1) _ ?_
      rcases processStudent_results_shape c oracle i s st with ⟨f, hres, hid, _, hterm⟩
      rw [hres]
      intro r' hr'
      rcases mem_setRecord.mp hr' with ⟨r, hr, heq⟩
      by_cases h : r.studentId = s.id
      · rw [if_pos h] at heq
        exact Or.inl (heq ▸ hterm r)
      · rw [if_neg h] at heq
        subst heq
        rcases hinv r hr with hterm' | hmem
        · exact Or.inl hterm'
        · simp only [List.map_cons, List.mem_cons] at hmem
          rcases hmem with hmem | hmem
          · exact absurd hmem h
          · exact Or.inr hmem

/-- With pairwise-distinct ids, the whole ledger trace of the loop is a
chain of `StepOk` steps, provided it was one so far, its last snapshot is
the current `results`, and every record of a still-unprocessed student is
loading. -/
theorem runLoop_chain (c : CommonData) (oracle : Nat → ServiceResult) :
    ∀ (l : List StudentData) (i : Nat) (st : BatchState),
      (l.map (fun s => s.id)).Nodup →
      (∀ r ∈ st.results, r.studentId ∈ l.map (fun s => s.id) →
        r.status = Status.loading) →
      st.ledgerTrace.getLast? = some st.results →
      List.Chain' StepOk st.ledgerTrace →
      List.Chain' StepOk (runLoop c oracle l i st).ledgerTrace
  | [], _, _, _, _, _, hchain => hchain
  | s :: rest, i, st, hnodup, hload, hlast, hchain => by
      rw [runLoop]
      have hloadS : ∀ r ∈ st.results, r.studentId = s.id → r.status = Status.loading := by
        intro r hr hid
        exact hload r hr (by simp [hid])
      rcases processStudent_trace_shape c oracle i s st hloadS with
        ⟨snaps, hne, htr, hsnlast, hsnchain⟩
      rcases processStudent_results_shape c oracle i s st with ⟨f, hres, hid, _, _⟩
      simp only [List.map_cons, List.nodup_cons] at hnodup
      refine runLoop_chain c oracle rest (i + 1) _ hnodup.2 ?_ ?_ ?_
      · rw [hres]
        intro r' hr' hmem
        rcases mem_setRecord.mp hr' with ⟨r, hr, heq⟩
        by_cases h : r.studentId = s.id
        · rw [if_pos h] at heq
          have : r'.studentId = s.id := by rw [← heq, hid, h]
          rw [this] at hmem
          exact absurd hmem hnodup.1
        · rw [if_neg h] at heq
          subst heq
          exact hload r hr (by simp [hmem])
      · rw [htr, List.getLast?_append]
        rw [hsnlast]
        rfl
      · rw [htr]
        rw [List.chain'_append]
        refine ⟨hchain, (List.chain'_cons'.mp hsnchain).2, ?_⟩
        intro x hx y hy
        rw [hlast] at hx
        simp only [Option.mem_def, Option.some.injEq] at hx
        subst hx
        exact (List.chain'_cons'.mp hsnchain).1 y hy

/-- Calls made by the loop extend the call trace, and every appended call
is made for a student of the remaining roster. -/
theorem runLoop_calls (c : CommonData) (oracle : Nat → ServiceResult) :
    ∀ (l : List StudentData) (i : Nat) (st : BatchState),
      ∃ cs : List ServiceCall,
        (runLoop c oracle l i st).calls = st.calls ++ cs ∧
        ∀ call ∈ cs, call.sid ∈ l.map (fun s => s.id)
  | [], _, st => ⟨[], by simp [runLoop], by simp⟩
  | s :: rest, i, st => by
      rw [runLoop]
      rcases processStudent_calls_shape c oracle i s st with ⟨cs1, hcalls1, hsid1⟩
      rcases runLoop_calls c oracle rest (i + 1) (processStudent c oracle i s st) with
        ⟨cs2, hcalls2, hsid2⟩
      refine ⟨cs1 ++ cs2, by rw [hcalls2, hcalls1, List.append_assoc], ?_⟩
      intro call hc
      rcases List.mem_append.mp hc with h | h
      · simp [hsid1 call h]
      · simp only [List.map_cons, List.mem_cons]
        exact Or.inr (hsid2 call h)

/-- A record whose student id belongs to none of the remaining roster
entries is left untouched by the rest of the loop. -/
theorem runLoop_frozen (c : CommonData) (oracle : Nat → ServiceResult) :
    ∀ (l : List StudentData) (i : Nat) (st : BatchState) (j : Nat) (r : ReportResult),
      (∀ s ∈ l, s.id ≠ r.studentId) →
      st.results[j]? = some r →
      (runLoop c oracle l i st).results[j]? = some r
  | [], _, _, _, _, _, hj => hj
  | s :: rest, i, st, j, r, hne, hj => by
      rw [runLoop]
      refine runLoop_frozen c oracle rest (i + 1) _ j r ?_ ?_
      · intro s' hs'
        exact hne s' (List.mem_cons_of_mem s hs')
      · rcases processStudent_results_shape c oracle i s st with ⟨f, hres, _, _, _⟩
        rw [hres, setRecord_getElem?, hj]
        have : r.studentId ≠ s.id := fun h => hne s (List.mem_cons_self s rest) h.symm
        simp [this]

/-- The progress history of the loop: one update per student, counting up
by one from the starting index, with the total untouched. -/
theorem runLoop_progressTrace (c : CommonData) (oracle : Nat → ServiceResult) :
    ∀ (l : List StudentData) (i : Nat) (st : BatchState),
      (runLoop c oracle l i st).progressTrace =
        st.progressTrace ++ (List.range l.length).map
          (fun j => {current := i + j + 1, total := st.progress.total})
  | [], _, _ => by simp [runLoop]
  | s :: rest, i, st => by
      rw [runLoop, runLoop_progressTrace c oracle rest (i + 1) _]
      rcases processStudent_progress c oracle i s st with ⟨hp, hpt⟩
      rw [hpt, hp]
      have hmap : (List.range (rest.length + 1)).map
            (fun j => ({current := i + j + 1, total := st.progress.total} : Progress))
          = ({current := i + 1, total := st.progress.total} : Progress) ::
            (List.range rest.length).map
              (fun j => ({current := i + 1 + j + 1, total := st.progress.total} : Progress)) := by
        rw [List.range_succ_eq_map, List.map_cons, List.map_map]
        refine congrArg₂ List.cons (by simp) ?_
        refine List.map_congr_left (fun j hj => ?_)
        simp only [Function.comp, Progress.mk.injEq, and_true]
        omega
      simp only [List.length_cons]
      rw [hmap, List.append_assoc, List.singleton_append]

/-- The final progress value of the loop. -/
theorem runLoop_progress_last (c : CommonData) (oracle : Nat → ServiceResult) :
    ∀ (l : List StudentData) (i : Nat) (st : BatchState), l ≠ [] →
      (runLoop c oracle l i st).progress =
        {current := i + l.length, total := st.progress.total}
  | [], _, _, hne => absurd rfl hne
  | s :: rest, i, st, _ => by
      rw [runLoop]
      rcases processStudent_progress c oracle i s st with ⟨hp, _⟩
      by_cases h : rest = []
      · subst h
        rw [runLoop]
        rw [hp]
        simp
      · rw [runLoop_progress_last c oracle rest (i + 1) _ h, hp]
        simp only [List.length_cons]
        congr 1
        omega

/-! ## Decomposing a run at an intermediate iteration -/

theorem runLoop_append (c : CommonData) (oracle : Nat → ServiceResult) :
    ∀ (l1 l2 : List StudentData) (i : Nat) (st : BatchState),
      runLoop c oracle (l1 ++ l2) i st =
        runLoop c oracle l2 (i + l1.length) (runLoop c oracle l1 i st)
  | [], l2, i, st => by simp [runLoop]
  | s :: t, l2, i, st => by
      rw [List.cons_append, runLoop, runLoop, runLoop_append c oracle t l2 (i + 1) _]
      congr 1
      simp only [List.length_cons]
      omega

theorem seedResults_map_studentId (roster : List StudentData) :
    (seedResults roster).map (fun r => r.studentId) = roster.map (fun s => s.id) := by
  simp [seedResults]

theorem stateAt_zero (c : CommonData) (oracle : Nat → ServiceResult)
    (roster : List StudentData) (clock0 : Nat) :
    stateAt c oracle roster clock0 0 = initialState roster clock0 := by
  simp [stateAt, runLoop]

theorem stateAt_succ (c : CommonData) (oracle : Nat → ServiceResult)
    (roster : List StudentData) (clock0 : Nat) (k : Nat) (s : StudentData)
    (hs : roster[k]? = some s) :
    stateAt c oracle roster clock0 (k + 1) =
      processStudent c oracle k s (stateAt c oracle roster clock0 k) := by
  have hk : k < roster.length := by
    rcases List.getElem?_eq_some.mp hs with ⟨h, _⟩
    exact h
  have htake : roster.take (k + 1) = roster.take k ++ [s] := by
    rw [List.take_succ, hs]
    rfl
  have hlen : (roster.take k).length = k := by
    rw [List.length_take]
    omega
  rw [stateAt, htake, runLoop_append, hlen, Nat.zero_add, runLoop, runLoop, stateAt]

theorem runBatch_decomp (c : CommonData) (oracle : Nat → ServiceResult)
    (roster : List StudentData) (clock0 : Nat) (k : Nat) (hk : k ≤ roster.length) :
    runBatch c oracle roster clock0 =
      runLoop c oracle (roster.drop k) k (stateAt c oracle roster clock0 k) := by
  have hlen : (roster.take k).length = k := by
    rw [List.length_take]
    omega
  have key : ∀ st : BatchState, runLoop c oracle roster 0 st =
      runLoop c oracle (roster.drop k) k (runLoop c oracle (roster.take k) 0 st) := by
    intro st
    conv_lhs => rw [← List.take_append_drop k roster]
    rw [runLoop_append, hlen, Nat.zero_add]
  rw [runBatch, key, stateAt]

/-! ## Duplicate-free rosters -/

/-- In a duplicate-free list, the element at position `k` occurs in neither
the prefix before it nor the suffix after it. -/
theorem nodup_not_mem_take_drop {α : Type} {L : List α} {k : Nat} {a : α}
    (hN : L.Nodup) (hk : L[k]? = some a) :
    a ∉ L.take k ∧ a ∉ L.drop (k + 1) := by
  have hsplit := List.take_append_drop k L
  have hN2 : (L.take k ++ L.drop k).Nodup := by rw [hsplit]; exact hN
  rw [List.nodup_append] at hN2
  have hdropk : (L.drop k)[0]? = some a := by
    rw [List.getElem?_drop]
    simpa using hk
  have hmem : a ∈ L.drop k := List.getElem?_mem hdropk
  refine ⟨fun hmem' => hN2.2.2 hmem' hmem, ?_⟩
  cases hd : L.drop k with
  | nil => rw [hd] at hdropk; simp at hdropk
  | cons b t =>
      have hb : b = a := by rw [hd] at hdropk; simpa using hdropk
      have ht : t = L.drop (k + 1) := by
        rw [← List.tail_drop, hd]
        rfl
      have hnd : (b :: t).Nodup := by rw [← hd]; exact hN2.2.1
      rw [List.nodup_cons] at hnd
      rw [← ht, ← hb]
      exact hnd.1

/-- With pairwise-distinct ids, no other roster entry shares the id of the
entry at position `k`. -/
theorem roster_id_isolated (roster : List StudentData) (k : Nat) (s : StudentData)
    (hN : (roster.map (fun s => s.id)).Nodup) (hs : roster[k]? = some s) :
    (∀ s' ∈ roster.take k, s'.id ≠ s.id) ∧
    (∀ s' ∈ roster.drop (k + 1), s'.id ≠ s.id) := by
  have hk : (roster.map (fun s => s.id))[k]? = some s.id := by
    rw [List.getElem?_map, hs]
    rfl
  have h := nodup_not_mem_take_drop hN hk
  constructor
  · intro s' hs' heq
    refine h.1 ?_
    rw [← List.map_take]
    exact heq ▸ List.mem_map_of_mem _ hs'
  · intro s' hs' heq
    refine h.2 ?_
    rw [← List.map_drop]
    exact heq ▸ List.mem_map_of_mem _ hs'

/-- Before iteration `k`, the record at position `k` carries the id of the
roster entry at position `k`. -/
theorem stateAt_record (c : CommonData) (oracle : Nat → ServiceResult)
    (roster : List StudentData) (clock0 : Nat) (k : Nat) (s : StudentData)
    (hs : roster[k]? = some s) :
    ∃ r0 : ReportResult,
      (stateAt c oracle roster clock0 k).results[k]? = some r0 ∧
      r0.studentId = s.id := by
  have hmap : ((stateAt c oracle roster clock0 k).results).map (fun r => r.studentId) =
      roster.map (fun s => s.id) := by
    rw [stateAt, runLoop_map_studentId]
    exact seedResults_map_studentId roster
  have : (((stateAt c oracle roster clock0 k).results).map (fun r => r.studentId))[k]? =
      some s.id := by
    rw [hmap, List.getElem?_map, hs]
    rfl
  rw [List.getElem?_map] at this
  rcases Option.map_eq_some'.mp this with ⟨r0, hr0, hid⟩
  exact ⟨r0, hr0, hid⟩

/-! ## Whole-run facts -/

/-- A full run preserves the seeded id sequence. -/
theorem runBatch_map_studentId (c : CommonData) (oracle : Nat → ServiceResult)
    (roster : List StudentData) (clock0 : Nat) :
    ((runBatch c oracle roster clock0).results).map (fun r => r.studentId) =
      roster.map (fun s => s.id) := by
  rw [runBatch, runLoop_map_studentId]
  simp only [initialState]
  exact seedResults_map_studentId roster

/-- After a full run every record is terminal. -/
theorem runBatch_terminal (c : CommonData) (oracle : Nat → ServiceResult)
    (roster : List StudentData) (clock0 : Nat) :
    ∀ r ∈ (runBatch c oracle roster clock0).results,
      r.status = Status.done ∨ r.status = Status.error := by
  rw [runBatch]
  refine runLoop_terminal c oracle roster 0 _ ?_
  intro r hr
  right
  simp only [initialState, seedResults] at hr
  rcases List.mem_map.mp hr with ⟨s, hs, heq⟩
  rw [← heq]
  exact List.mem_map_of_mem _ hs

/-- A full run keeps one record per roster entry. -/
theorem runBatch_results_length (c : CommonData) (oracle : Nat → ServiceResult)
    (roster : List StudentData) (clock0 : Nat) :
    (runBatch c oracle roster clock0).results.length = roster.length := by
  have h := congrArg List.length (runBatch_map_studentId c oracle roster clock0)
  simpa using h

/-! ## Claim theorems -/

/-- C2. For every non-empty roster, after the batch loop completes the
results collection carries exactly one record per roster entry, in roster
order (the id sequences agree position by position), and every record is
terminal: `done` or `error`, never still `loading`. -/
theorem batch_ledger_complete (c : CommonData) (oracle : Nat → ServiceResult)
    (roster : List StudentData) (clock0 : Nat) (hne : roster ≠ []) :
    ((runBatch c oracle roster clock0).results).map (fun r => r.studentId) =
      roster.map (fun s => s.id) ∧
    ∀ r ∈ (runBatch c oracle roster clock0).results,
      r.status = Status.done ∨ r.status = Status.error :=
  ⟨runBatch_map_studentId c oracle roster clock0,
   runBatch_terminal c oracle roster clock0⟩

/-- Witness for C2 at a concrete two-student roster. -/
theorem batch_ledger_complete_witness :
    ([studentA, studentB] ≠ ([] : List StudentData)) ∧
    (((runBatch commonOne oracleOk [studentA, studentB] 0).results).map
        (fun r => r.studentId) = [studentA, studentB].map (fun s => s.id) ∧
      ∀ r ∈ (runBatch commonOne oracleOk [studentA, studentB] 0).results,
        r.status = Status.done ∨ r.status = Status.error) :=
  ⟨List.cons_ne_nil _ _,
   batch_ledger_complete commonOne oracleOk [studentA, studentB] 0 (List.cons_ne_nil _ _)⟩

/-- C4. The progress counter is seeded at `(0, roster size)` and then takes
exactly the values `1, 2, …, total` in order — one increment of one per
student, the total never changing — and once the loop has ended the final
progress value satisfies `current = total`. -/
theorem batch_progress_exact (c : CommonData) (oracle : Nat → ServiceResult)
    (roster : List StudentData) (clock0 : Nat) :
    (runBatch c oracle roster clock0).progressTrace =
      {current := 0, total := roster.length} ::
        (List.range roster.length).map
          (fun j => {current := j + 1, total := roster.length}) ∧
    (runBatch c oracle roster clock0).progress.current =
      (runBatch c oracle roster clock0).progress.total := by
  constructor
  · rw [runBatch, runLoop_progressTrace]
    simp [initialState]
  · by_cases hne : roster = []
    · subst hne
      simp [runBatch, runLoop, initialState]
    · rw [runBatch, runLoop_progress_last c oracle roster 0 _ hne]
      simp [initialState]

/-- C1. If the grading stage fails for the student at roster position `k`
of a duplicate-free roster — whether by input validation or by a failed
service call — then no formatting call is ever made for that student, the
student's record ends `error` carrying the captured error message, and
every later roster entry is still processed to a terminal record. -/
theorem grade_failure_isolated (c : CommonData) (oracle : Nat → ServiceResult)
    (roster : List StudentData) (clock0 : Nat) (k : Nat) (s : StudentData) (e : Err)
    (hN : (roster.map (fun s => s.id)).Nodup)
    (hs : roster[k]? = some s)
    (hfail : (gradeSolutionAndGenerateFeedback c (taskOf s)
        (oracle (stateAt c oracle roster clock0 k).calls.length)).1 = Except.error e) :
    (∀ call ∈ (runBatch c oracle roster clock0).calls,
      call ≠ ServiceCall.format s.id) ∧
    (∃ rec : ReportResult, (runBatch c oracle roster clock0).results[k]? = some rec ∧
      rec.status = Status.error ∧ rec.error = some e.message) ∧
    (∀ j : Nat, k < j → j < roster.length →
      ∃ rec : ReportResult, (runBatch c oracle roster clock0).results[j]? = some rec ∧
        (rec.status = Status.done ∨ rec.status = Status.error)) := by
  have hk : k < roster.length := (List.getElem?_eq_some.mp hs).1
  set st := stateAt c oracle roster clock0 k with hst
  have hiter : (processStudent c oracle k s st).results =
        setRecord (setRecord st.results s.id (markNote analyzingMsg)) s.id
          (markError e.message) ∧
      ∀ call ∈ (processStudent c oracle k s st).calls,
        call ∈ st.calls ∨ call = ServiceCall.grade s.id := by
    rw [gradeSolutionAndGenerateFeedback.eq_def] at hfail
    simp only [taskOf] at hfail
    by_cases hpre : (c.examMaterials.length = 0 ∨ s.solutionFiles.length = 0)
    · rw [if_pos hpre] at hfail
      simp only [Except.error.injEq] at hfail
      have hmsg : e.message = requiredFilesError := by rw [← hfail]
      rw [processStudent_precheckFail c oracle k s st hpre, hmsg]
      exact ⟨rfl, fun call hcall => Or.inl hcall⟩
    · cases hg : oracle st.calls.length with
      | ok raw =>
          rw [if_neg hpre, hg] at hfail
          simp at hfail
      | fail m =>
          rw [if_neg hpre, hg] at hfail
          simp only [Except.error.injEq] at hfail
          have hmsg : e.message = m := by rw [← hfail]
          rw [processStudent_gradeFail c oracle k s st m hpre hg, hmsg]
          refine ⟨rfl, fun call hcall => ?_⟩
          rcases List.mem_append.mp hcall with h | h
          · exact Or.inl h
          · simp only [List.mem_singleton] at h
            exact Or.inr h
  rcases stateAt_record c oracle roster clock0 k s hs with ⟨r0, hr0, hid0⟩
  have hrec : (processStudent c oracle k s st).results[k]? =
      some (markError e.message (markNote analyzingMsg r0)) := by
    rw [hiter.1, setRecord_getElem?, setRecord_getElem?, hr0]
    simp [markNote, hid0]
  have hdec : runBatch c oracle roster clock0 =
      runLoop c oracle (roster.drop (k + 1)) (k + 1) (processStudent c oracle k s st) := by
    rw [runBatch_decomp c oracle roster clock0 (k + 1) (by omega),
      stateAt_succ c oracle roster clock0 k s hs]
  rcases roster_id_isolated roster k s hN hs with ⟨hpre_ids, hpost_ids⟩
  have hstcalls : ∀ call ∈ st.calls, call.sid ∈ (roster.take k).map (fun s => s.id) := by
    rw [hst, stateAt]
    rcases runLoop_calls c oracle (roster.take k) 0 (initialState roster clock0) with
      ⟨cs, hcs, hsid⟩
    rw [hcs]
    intro call hcall
    simp only [initialState, List.nil_append] at hcall
    exact hsid call hcall
  refine ⟨?_, ?_, ?_⟩
  · intro call hcall
    rw [hdec] at hcall
    rcases runLoop_calls c oracle (roster.drop (k + 1)) (k + 1)
        (processStudent c oracle k s st) with ⟨cs2, hcs2, hsid2⟩
    rw [hcs2] at hcall
    rcases List.mem_append.mp hcall with h1 | h2
    · rcases hiter.2 call h1 with hin | hgr
      · intro heq
        subst heq
        have hmem := hstcalls _ hin
        simp only [ServiceCall.sid] at hmem
        rcases List.mem_map.mp hmem with ⟨s', hs', heq'⟩
        exact hpre_ids s' hs' heq'
      · subst hgr
        intro heq
        exact ServiceCall.noConfusion heq
    · intro heq
      subst heq
      have hmem := hsid2 _ h2
      simp only [ServiceCall.sid] at hmem
      rcases List.mem_map.mp hmem with ⟨s', hs', heq'⟩
      exact hpost_ids s' hs' heq'
  · refine ⟨markError e.message (markNote analyzingMsg r0), ?_, rfl, rfl⟩
    rw [hdec]
    refine runLoop_frozen c oracle _ (k + 1) _ k _ ?_ hrec
    intro s' hs'
    have hidrec : (markError e.message (markNote analyzingMsg r0)).studentId = s.id := by
      simp [markError, markNote, hid0]
    rw [hidrec]
    exact hpost_ids s' hs'
  · intro j hkj hjlen
    have hlen := runBatch_results_length c oracle roster clock0
    have hjlt : j < (runBatch c oracle roster clock0).results.length := by
      rw [hlen]
      exact hjlen
    exact ⟨(runBatch c oracle roster clock0).results[j],
      List.getElem?_eq_getElem hjlt,
      runBatch_terminal c oracle roster clock0 _ (List.getElem_mem hjlt)⟩

/-- Witness for C1: with two students, the first student's grading call
fails with a transport error; the second student still completes. -/
theorem grade_failure_isolated_witness :
    ((([studentA, studentC]).map (fun s => s.id)).Nodup ∧
      ([studentA, studentC] : List StudentData)[0]? = some studentA ∧
      (gradeSolutionAndGenerateFeedback commonOne (taskOf studentA)
        (oracleFirstFails
          (stateAt commonOne oracleFirstFails [studentA, studentC] 0 0).calls.length)).1 =
        Except.error {kind := ErrKind.service, message := str "boom"}) ∧
    ((∀ call ∈ (runBatch commonOne oracleFirstFails [studentA, studentC] 0).calls,
        call ≠ ServiceCall.format studentA.id) ∧
      (∃ rec : ReportResult,
        (runBatch commonOne oracleFirstFails [studentA, studentC] 0).results[0]? = some rec ∧
        rec.status = Status.error ∧
        rec.error = some ({kind := ErrKind.service, message := str "boom"} : Err).message) ∧
      (∀ j : Nat, 0 < j → j < ([studentA, studentC] : List StudentData).length →
        ∃ rec : ReportResult,
          (runBatch commonOne oracleFirstFails [studentA, studentC] 0).results[j]? = some rec ∧
          (rec.status = Status.done ∨ rec.status = Status.error))) :=
  ⟨⟨by decide, by decide, by rfl⟩,
   grade_failure_isolated commonOne oracleFirstFails [studentA, studentC] 0 0 studentA
     {kind := ErrKind.service, message := str "boom"} (by decide) (by decide) (by rfl)⟩

/-- C3. For a student with no solution documents (or a batch with no exam
materials) in a duplicate-free roster, the grading stage fails with the
validation error — whatever the service would have answered — before any
network call: no service call of either stage is ever made for that
student, and the student's record ends `error` with the validation
message. -/
theorem empty_inputs_validation (c : CommonData) (oracle : Nat → ServiceResult)
    (roster : List StudentData) (clock0 : Nat) (k : Nat) (s : StudentData)
    (hN : (roster.map (fun s => s.id)).Nodup)
    (hs : roster[k]? = some s)
    (hempty : s.solutionFiles = [] ∨ c.examMaterials = []) :
    (∀ svc : ServiceResult, gradeSolutionAndGenerateFeedback c (taskOf s) svc =
      (Except.error {kind := ErrKind.validation, message := requiredFilesError}, false)) ∧
    (∀ call ∈ (runBatch c oracle roster clock0).calls, call.sid ≠ s.id) ∧
    (∃ rec : ReportResult, (runBatch c oracle roster clock0).results[k]? = some rec ∧
      rec.status = Status.error ∧ rec.error = some requiredFilesError) := by
  have hk : k < roster.length := (List.getElem?_eq_some.mp hs).1
  have hpre : c.examMaterials.length = 0 ∨ s.solutionFiles.length = 0 := by
    rcases hempty with h | h
    · exact Or.inr (by simp [h])
    · exact Or.inl (by simp [h])
  set st := stateAt c oracle roster clock0 k with hst
  have hiter := processStudent_precheckFail c oracle k s st hpre
  have hdec : runBatch c oracle roster clock0 =
      runLoop c oracle (roster.drop (k + 1)) (k + 1) (processStudent c oracle k s st) := by
    rw [runBatch_decomp c oracle roster clock0 (k + 1) (by omega),
      stateAt_succ c oracle roster clock0 k s hs]
  rcases roster_id_isolated roster k s hN hs with ⟨hpre_ids, hpost_ids⟩
  have hstcalls : ∀ call ∈ st.calls, call.sid ∈ (roster.take k).map (fun s => s.id) := by
    rw [hst, stateAt]
    rcases runLoop_calls c oracle (roster.take k) 0 (initialState roster clock0) with
      ⟨cs, hcs, hsid⟩
    rw [hcs]
    intro call hcall
    simp only [initialState, List.nil_append] at hcall
    exact hsid call hcall
  refine ⟨?_, ?_, ?_⟩
  · intro svc
    rw [gradeSolutionAndGenerateFeedback.eq_def]
    simp only [taskOf]
    rw [if_pos hpre]
  · intro call hcall
    rw [hdec] at hcall
    rcases runLoop_calls c oracle (roster.drop (k + 1)) (k + 1)
        (processStudent c oracle k s st) with ⟨cs2, hcs2, hsid2⟩
    rw [hcs2] at hcall
    rcases List.mem_append.mp hcall with h1 | h2
    · rw [hiter] at h1
      have h1' : call ∈ st.calls := h1
      intro heq
      have hmem := hstcalls _ h1'
      rw [heq] at hmem
      rcases List.mem_map.mp hmem with ⟨s', hs', heq'⟩
      exact hpre_ids s' hs' heq'
    · intro heq
      have hmem := hsid2 _ h2
      rw [heq] at hmem
      rcases List.mem_map.mp hmem with ⟨s', hs', heq'⟩
      exact hpost_ids s' hs' heq'
  · rcases stateAt_record c oracle roster clock0 k s hs with ⟨r0, hr0, hid0⟩
    have hrec : (processStudent c oracle k s st).results[k]? =
        some (markError requiredFilesError (markNote analyzingMsg r0)) := by
      rw [hiter]
      simp only
      rw [setRecord_getElem?, setRecord_getElem?, hr0]
      simp [markNote, hid0]
    refine ⟨markError requiredFilesError (markNote analyzingMsg r0), ?_, rfl, rfl⟩
    rw [hdec]
    refine runLoop_frozen c oracle _ (k + 1) _ k _ ?_ hrec
    intro s' hs'
    have hidrec : (markError requiredFilesError (markNote analyzingMsg r0)).studentId = s.id := by
      simp [markError, markNote, hid0]
    rw [hidrec]
    exact hpost_ids s' hs'

/-- Witness for C3: student B has no solution documents; exam materials
are present; the service would have succeeded. -/
theorem empty_inputs_validation_witness :
    ((([studentA, studentB]).map (fun s => s.id)).Nodup ∧
      ([studentA, studentB] : List StudentData)[1]? = some studentB ∧
      (studentB.solutionFiles = [] ∨ commonOne.examMaterials = [])) ∧
    ((∀ svc : ServiceResult, gradeSolutionAndGenerateFeedback commonOne (taskOf studentB) svc =
        (Except.error {kind := ErrKind.validation, message := requiredFilesError}, false)) ∧
      (∀ call ∈ (runBatch commonOne oracleOk [studentA, studentB] 0).calls,
        call.sid ≠ studentB.id) ∧
      (∃ rec : ReportResult,
        (runBatch commonOne oracleOk [studentA, studentB] 0).results[1]? = some rec ∧
        rec.status = Status.error ∧ rec.error = some requiredFilesError)) :=
  ⟨⟨by decide, by decide, Or.inl rfl⟩,
   empty_inputs_validation commonOne oracleOk [studentA, studentB] 0 1 studentB
     (by decide) (by decide) (Or.inl rfl)⟩

/-- C5 (amended). On the success path the record transitions to `done`
carrying the rendered content, the student's name and contact, the shared
exam description, and a generation timestamp — but that timestamp is the
clock value captured at the start of the student's iteration, before the
two service round trips, not one captured at the Done transition: by the
time the `done` update is applied the clock has advanced by two. The
progress note is cleared at the transition. -/
theorem generation_timestamp_at_start (c : CommonData) (oracle : Nat → ServiceResult)
    (i : Nat) (s : StudentData) (st : BatchState) (raw fmt : JsString)
    (hpre : ¬(c.examMaterials.length = 0 ∨ s.solutionFiles.length = 0))
    (hg : oracle st.calls.length = ServiceResult.ok raw)
    (hf : oracle (st.calls.length + 1) = ServiceResult.ok fmt) :
    (processStudent c oracle i s st).results =
      setRecord st.results s.id (fun r =>
        { r with
          status := Status.done
          data := some
            { htmlContent := stripFences fmt
              studentEmail := s.email
              studentName := s.name
              examInfo := c.examInfo
              generationDate := st.clock }
          progressMessage := none }) ∧
    (processStudent c oracle i s st).clock = st.clock + 2 := by
  rw [processStudent_success c oracle i s st raw fmt hpre hg hf]
  refine ⟨?_, rfl⟩
  simp only
  rw [setRecord_setRecord (markNote analyzingMsg) (fun r => rfl),
    setRecord_setRecord (fun r => markNote formattingMsg (markNote analyzingMsg r))
      (fun r => rfl)]
  rfl

/-- Counterexample to C5 as stated: in a concrete successful one-student
run, the stored generation timestamp is the clock value read before the
grading call (0), while the Done transition is applied only after the two
service round trips (clock 2) — the timestamp stored in the result does
not equal the time of the transition to Done. -/
theorem generation_timestamp_cex :
    ((runBatch commonOne oracleOk [studentA] 0).results[0]?.bind
        (fun r => r.data)).map (fun d => d.generationDate) = some 0 ∧
    (runBatch commonOne oracleOk [studentA] 0).clock = 2 ∧
    ((runBatch commonOne oracleOk [studentA] 0).results[0]?.bind
        (fun r => r.data)).map (fun d => d.generationDate) ≠
      some (runBatch commonOne oracleOk [studentA] 0).clock := by
  refine ⟨by decide, by decide, by decide⟩

/-- Witness for the amended C5 at a concrete state. -/
theorem generation_timestamp_at_start_witness :
    (¬(commonOne.examMaterials.length = 0 ∨ studentA.solutionFiles.length = 0) ∧
      oracleOk (initialState [studentA] 0).calls.length = ServiceResult.ok (str "out") ∧
      oracleOk ((initialState [studentA] 0).calls.length + 1) = ServiceResult.ok (str "out")) ∧
    ((processStudent commonOne oracleOk 0 studentA (initialState [studentA] 0)).results =
      setRecord (initialState [studentA] 0).results studentA.id (fun r =>
        { r with
          status := Status.done
          data := some
            { htmlContent := stripFences (str "out")
              studentEmail := studentA.email
              studentName := studentA.name
              examInfo := commonOne.examInfo
              generationDate := (initialState [studentA] 0).clock }
          progressMessage := none }) ∧
      (processStudent commonOne oracleOk 0 studentA (initialState [studentA] 0)).clock =
        (initialState [studentA] 0).clock + 2) :=
  ⟨⟨by decide, by rfl, by rfl⟩,
   generation_timestamp_at_start commonOne oracleOk 0 studentA (initialState [studentA] 0)
     (str "out") (str "out") (by decide) (by rfl) (by rfl)⟩

/-- C6 (amended). With pairwise-distinct roster ids the observable record
history is monotone: between adjacent `setResults` snapshots a record's
status either stays unchanged or moves from `loading` directly to a
terminal state, so in particular a terminal record never transitions
again. The update operation itself has no terminal-state guard: applied to
a roster with a duplicated id it silently overwrites a terminal record
instead of failing loudly (see the counterexample). -/
theorem ledger_status_monotonic (c : CommonData) (oracle : Nat → ServiceResult)
    (roster : List StudentData) (clock0 : Nat)
    (hN : (roster.map (fun s => s.id)).Nodup) :
    List.Chain' StepOk (runBatch c oracle roster clock0).ledgerTrace := by
  rw [runBatch]
  refine runLoop_chain c oracle roster 0 (initialState roster clock0) hN ?_ ?_ ?_
  · intro r hr _
    simp only [initialState, seedResults] at hr
    rcases List.mem_map.mp hr with ⟨s, _, heq⟩
    rw [← heq]
  · simp [initialState]
  · simp [initialState]

/-- Counterexample to C6 as stated: with a duplicated student id, the
`done` record of the first student is silently overwritten to `error` by
the second same-id student's validation failure — a terminal record
transitions again and nothing fails loudly. In the ledger trace, snapshot
3 has the first record `done` while snapshot 5 has it `error`. -/
theorem ledger_terminal_overwritten_cex :
    ((runBatch commonOne oracleOk [studentA, studentDup] 0).ledgerTrace[3]?.bind
      (fun snap => snap[0]?)).map (fun r => r.status) = some Status.done ∧
    ((runBatch commonOne oracleOk [studentA, studentDup] 0).ledgerTrace[5]?.bind
      (fun snap => snap[0]?)).map (fun r => r.status) = some Status.error ∧
    Status.done ≠ Status.error := by
  refine ⟨by decide, by decide, by decide⟩

/-- Witness for the amended C6 at a concrete duplicate-free roster. -/
theorem ledger_status_monotonic_witness :
    (([studentA, studentC].map (fun s => s.id)).Nodup) ∧
    List.Chain' StepOk (runBatch commonOne oracleOk [studentA, studentC] 0).ledgerTrace :=
  ⟨by decide, ledger_status_monotonic commonOne oracleOk [studentA, studentC] 0 (by decide)⟩

/-- C7 (amended). `formatReportToHtml` fully unwraps a response the service
fenced as ```` ```html … ``` ````: the leading marker, the trailing marker
and surrounding whitespace are removed, returning the trimmed body. Only
the exact leading marker ```` ```html ```` is recognised; a fence emitted
as a plain ```` ``` ```` prefix is left in place (see the counterexample),
so the blanket guarantee of the claim does not hold. -/
theorem formatReport_strips_html_fence (rawReport examInfo studentName : JsString)
    (generationDate : Nat) (body : JsString) :
    formatReportToHtml rawReport examInfo studentName generationDate
      (ServiceResult.ok (fenceOpen ++ body ++ fenceClose)) =
    Except.ok (trimChars body) := by
  simp only [formatReportToHtml, stripFences]
  have h1 : fenceOpen.isPrefixOf (fenceOpen ++ body ++ fenceClose) = true := by
    rw [List.append_assoc, List.isPrefixOf_iff_prefix]
    exact List.prefix_append _ _
  have h2 : (fenceOpen ++ body ++ fenceClose).drop 7 = body ++ fenceClose := by
    rw [List.append_assoc]
    exact List.drop_left' rfl
  have h3 : fenceClose.isSuffixOf (body ++ fenceClose) = true := by
    rw [List.isSuffixOf_iff_suffix]
    exact List.suffix_append _ _
  have h4 : (body ++ fenceClose).take ((body ++ fenceClose).length - 3) = body := by
    refine List.take_left' ?_
    simp [fenceClose, str]
  rw [h1]
  simp only [if_true]
  rw [h2, h3]
  simp only [if_true]
  rw [h4]

/-- Counterexample to C7 as stated: a response wrapped in plain ```` ``` ````
fences (without the `html` tag) keeps its opening fence — the returned
content still starts with a code fence the service emitted around its
output. -/
theorem formatReport_plain_fence_kept_cex :
    formatReportToHtml (str "r") (str "e") (str "n") 0
      (ServiceResult.ok (str "```\nhello\n```")) = Except.ok (str "```\nhello") ∧
    fenceClose.isPrefixOf (str "```\nhello") = true := by
  refine ⟨by rfl, by decide⟩

/-! ## De-duplication of source references -/

theorem firstSeenDedup_nodup : ∀ l : List JsString, (firstSeenDedup l).Nodup
  | [] => List.nodup_nil
  | u :: rest => by
      rw [firstSeenDedup, List.nodup_cons]
      constructor
      · intro hmem
        have := List.of_mem_filter hmem
        simp at this
      · exact List.Nodup.filter _ (firstSeenDedup_nodup rest)

theorem mem_firstSeenDedup : ∀ (l : List JsString) (v : JsString),
    v ∈ firstSeenDedup l ↔ v ∈ l
  | [], v => by simp [firstSeenDedup]
  | u :: rest, v => by
      rw [firstSeenDedup]
      simp only [List.mem_cons, List.mem_filter]
      constructor
      · rintro (h | ⟨h1, _⟩)
        · exact Or.inl h
        · exact Or.inr ((mem_firstSeenDedup rest v).mp h1)
      · rintro (h | h)
        · exact Or.inl h
        · by_cases hv : v = u
          · exact Or.inl hv
          · exact Or.inr ⟨(mem_firstSeenDedup rest v).mpr h, by simp [hv]⟩

theorem firstIdx_cons_self (u : JsString) (l : List JsString) :
    firstIdx (u :: l) u = 0 := by
  simp [firstIdx]

theorem firstIdx_cons_ne (u : JsString) (l : List JsString) (v : JsString)
    (h : v ≠ u) : firstIdx (u :: l) v = firstIdx l v + 1 := by
  simp [firstIdx, List.takeWhile_cons, Ne.symm h]

theorem firstSeenDedup_pairwise : ∀ l : List JsString,
    (firstSeenDedup l).Pairwise (fun a b => firstIdx l a < firstIdx l b)
  | [] => List.Pairwise.nil
  | u :: rest => by
      rw [firstSeenDedup, List.pairwise_cons]
      constructor
      · intro b hb
        have hbne : b ≠ u := by
          have := List.of_mem_filter hb
          simpa using this
        rw [firstIdx_cons_self, firstIdx_cons_ne u rest b hbne]
        exact Nat.succ_pos _
      · have hp2 : ((firstSeenDedup rest).filter (fun v => v ≠ u)).Pairwise
            (fun a b => firstIdx rest a < firstIdx rest b) :=
          (firstSeenDedup_pairwise rest).sublist (List.filter_sublist _)
        refine hp2.imp_of_mem ?_
        intro a b ha hb hlt
        have hane : a ≠ u := by
          have := List.of_mem_filter ha
          simpa using this
        have hbne : b ≠ u := by
          have := List.of_mem_filter hb
          simpa using this
        rw [firstIdx_cons_ne u rest a hane, firstIdx_cons_ne u rest b hbne]
        exact Nat.succ_lt_succ hlt

/-- C8. A search response's returned text is the trimmed generated text
followed by the references block: under the fixed heading each source URI
appears exactly once (the de-duplicated list has no duplicates and holds
exactly the URIs of the response, entries without a URI skipped) in
first-seen order (indices of first occurrence strictly increase along the
block); when the response carries no URIs nothing is appended. -/
theorem searchCriteria_references_spec (text : JsString)
    (chunks : List (Option JsString)) :
    searchScoringCriteria (Except.ok {text := text, groundingUris := chunks}) =
      Except.ok (trimChars text ++
        renderReferences (firstSeenDedup (chunks.filterMap id))) ∧
    (firstSeenDedup (chunks.filterMap id)).Nodup ∧
    (∀ u, u ∈ firstSeenDedup (chunks.filterMap id) ↔ u ∈ chunks.filterMap id) ∧
    (firstSeenDedup (chunks.filterMap id)).Pairwise
      (fun a b => firstIdx (chunks.filterMap id) a < firstIdx (chunks.filterMap id) b) ∧
    (chunks.filterMap id = [] →
      searchScoringCriteria (Except.ok {text := text, groundingUris := chunks}) =
        Except.ok (trimChars text)) := by
  refine ⟨rfl, firstSeenDedup_nodup _, fun u => mem_firstSeenDedup _ u,
    firstSeenDedup_pairwise _, ?_⟩
  intro hnil
  simp [searchScoringCriteria, hnil, firstSeenDedup, renderReferences]

/-- Witness for C8's no-references case at a concrete response. -/
theorem searchCriteria_references_spec_witness :
    (([] : List (Option JsString)).filterMap id = [] ∧
      searchScoringCriteria (Except.ok {text := str " x ", groundingUris := []}) =
        Except.ok (trimChars (str " x "))) :=
  ⟨rfl, (searchCriteria_references_spec (str " x ") []).2.2.2.2 rfl⟩

/-- C9 (amended). `searchScoringCriteria` fails with a ServiceError when
the transport itself fails, propagating the message; but it performs no
empty-response check: every received response is returned as a success —
the trimmed text plus the references block — even when that text is
empty. -/
theorem searchCriteria_no_empty_check :
    (∀ m : JsString, searchScoringCriteria (Except.error m) =
      Except.error {kind := ErrKind.service, message := m}) ∧
    (∀ resp : SearchResponse, searchScoringCriteria (Except.ok resp) =
      Except.ok (trimChars resp.text ++
        renderReferences (firstSeenDedup (resp.groundingUris.filterMap id)))) ∧
    searchScoringCriteria (Except.ok {text := [], groundingUris := []}) =
      Except.ok [] :=
  ⟨fun m => rfl, fun resp => rfl, rfl⟩

/-- Counterexample to C9 as stated: a response whose generated text is
empty and that carries no references is returned as a successful, empty
criteria text — no ServiceError is raised for the unusable empty result. -/
theorem searchCriteria_empty_success_cex :
    searchScoringCriteria (Except.ok {text := str "", groundingUris := []}) =
      Except.ok (str "") := by
  rfl

/-- C10. The initial model equals the stored preferred-model value exactly
when that value is one of the three `AVAILABLE_MODELS`; with no saved
value, a value outside the list, or a failed storage read it is the
default `gemini-2.5-flash`; hence the initial form state always holds a
valid model identifier. -/
theorem getInitialModel_spec :
    (∀ s : JsString, getInitialModel (Except.ok (some s)) = s ↔ s ∈ AVAILABLE_MODELS) ∧
    (∀ s : JsString, s ∉ AVAILABLE_MODELS →
      getInitialModel (Except.ok (some s)) = str "gemini-2.5-flash") ∧
    getInitialModel (Except.ok none) = str "gemini-2.5-flash" ∧
    (∀ u : Unit, getInitialModel (Except.error u) = str "gemini-2.5-flash") ∧
    (∀ stored : Except Unit (Option JsString),
      getInitialModel stored ∈ AVAILABLE_MODELS) := by
  refine ⟨?_, ?_, rfl, fun u => rfl, ?_⟩
  case refine_2 =>
    intro s hmem
    simp only [getInitialModel]
    rw [if_neg (fun hc => hmem hc.2)]
  · intro s
    constructor
    · intro h
      by_cases hmem : s ∈ AVAILABLE_MODELS
      · exact hmem
      · exfalso
        simp only [getInitialModel] at h
        rw [if_neg (fun hc => hmem hc.2)] at h
        rw [← h] at hmem
        exact hmem (by decide)
    · intro hmem
      have hne : s ≠ [] := by
        simp only [AVAILABLE_MODELS, List.mem_cons, List.not_mem_nil, or_false] at hmem
        rcases hmem with h | h | h <;> subst h <;> decide
      simp only [getInitialModel]
      rw [if_pos ⟨hne, hmem⟩]
  · intro stored
    cases stored with
    | error u => exact (by decide : str "gemini-2.5-flash" ∈ AVAILABLE_MODELS)
    | ok o =>
        cases o with
        | none => exact (by decide : str "gemini-2.5-flash" ∈ AVAILABLE_MODELS)
        | some s =>
            simp only [getInitialModel]
            by_cases h : (s ≠ [] ∧ s ∈ AVAILABLE_MODELS)
            · rw [if_pos h]
              exact h.2
            · rw [if_neg h]
              decide

/-- Witness for C10: a concrete stored value outside the list falls back
to the default model. -/
theorem getInitialModel_spec_witness :
    (str "gpt-4") ∉ AVAILABLE_MODELS ∧
    getInitialModel (Except.ok (some (str "gpt-4"))) = str "gemini-2.5-flash" :=
  ⟨by decide, getInitialModel_spec.2.1 (str "gpt-4") (by decide)⟩
